import Mathlib

/-!
Verification development for the tscaddy configuration-parsing core.

The Go code parses Tailscale node options out of Caddyfile token streams
into three record shapes (a global `App`, per-node `Node` values, and a
per-site `TailscaleDirective`), and publishes per-site node configurations
into a process-wide registry during provisioning.

The token stream is embedded as a list of option lines, each carrying a
keyword token and the argument tokens remaining on that line; this realises
the abstract adapter capability set (advance to next block line, advance to
next argument on the line, current token, argument-missing error, wrapped
error, formatted error) that both concrete Caddy adapters expose to the
parser.  At App scope, an entry may in addition carry a nested segment of
lines (the body of a named node block); a missing segment is `none`.

Go's in-place mutation through a pointer together with an error return is
embedded as a function returning the (possibly partially updated) record
paired with an optional error.
-/

namespace TSCaddy

/-- Conversion failure detail, mirroring Go `strconv.NumError` (function
name, offending numeral string and the underlying message). -/
structure NumError where
  func : String
  num : String
  msg : String
  deriving Repr, DecidableEq

/-- Errors the parser can produce through the token-stream adapter:
`argErr` from `ArgErr()`, `wrapErr` from `WrapErr(err)` wrapping a
conversion failure, and `errf` from `Errf(format, args...)` carrying the
formatted message. -/
inductive Err where
  | argErr : Err
  | wrapErr : NumError → Err
  | errf : String → Err
  deriving Repr, DecidableEq

/-- Model of Go `strconv.ParseBool`: accepts exactly the twelve literal
tokens Go accepts and rejects everything else. -/
def goParseBool : String → Option Bool
  | "1" | "t" | "T" | "true" | "TRUE" | "True" => some true
  | "0" | "f" | "F" | "false" | "FALSE" | "False" => some false
  | _ => none

/-- The `strconv.NumError` value Go `ParseBool` returns on a non-boolean
token (syntax error). -/
def parseBoolErr (s : String) : NumError :=
  ⟨"ParseBool", s, "invalid syntax"⟩

/-- Decidable equality for `ParseUint` results, so parses of concrete
strings can be checked by evaluation. -/
instance : DecidableEq (Except NumError Nat)
  | .ok x, .ok y =>
    if h : x = y then .isTrue (h ▸ rfl) else .isFalse (fun hc => h (Except.ok.inj hc))
  | .error x, .error y =>
    if h : x = y then .isTrue (h ▸ rfl) else .isFalse (fun hc => h (Except.error.inj hc))
  | .ok _, .error _ => .isFalse (fun hc => Except.noConfusion hc)
  | .error _, .ok _ => .isFalse (fun hc => Except.noConfusion hc)

/-- Base-10 value of a digit string (fold over its characters). -/
def strDecValue (s : String) : Nat :=
  s.data.foldl (fun acc c => acc * 10 + (c.toNat - 48)) 0

/-- Model of Go `strconv.ParseUint(s, 10, 16)`: an empty or non-digit
string is a syntax error, a digit string whose value exceeds 16 bits is a
range error, otherwise the decimal value is returned.  The string is
traversed through its character list. -/
def goParseUint1016 (s : String) : Except NumError Nat :=
  if s.data.isEmpty then .error ⟨"ParseUint", s, "invalid syntax"⟩
  else if s.data.all Char.isDigit then
    if strDecValue s < 65536 then .ok (strDecValue s)
    else .error ⟨"ParseUint", s, "value out of range"⟩
  else .error ⟨"ParseUint", s, "invalid syntax"⟩

/-- A Tailscale node configuration (`Node` in app.go).  `Ephemeral` and
`WebUI` are tri-state (`opt.Bool`): `none` is unset.  `Port` is `uint16`,
embedded as a `Nat` that the parser only ever sets to a value below
`2 ^ 16`.  `name` is the unexported registry/map key. -/
structure Node where
  AuthKey : String := ""
  ControlURL : String := ""
  Ephemeral : Option Bool := none
  WebUI : Option Bool := none
  Hostname : String := ""
  Port : Nat := 0
  StateDir : String := ""
  Tags : List String := []
  name : String := ""
  deriving Repr, DecidableEq

/-- One option line of a block in the token stream: the keyword token and
the argument tokens that follow it on the same line. -/
structure Line where
  keyword : String
  args : List String
  deriving Repr, DecidableEq

/-- Embedding of `parseNodeOptionsFromDispenser` (parse.go): iterate the
block's lines (`d.NextBlock(0)`), dispatch on the keyword (`d.Val()`), and
either update the node, stop with an error, or fall through to the
unrecognized-subdirective error.  Returns the node as mutated so far
together with the optional error, matching Go's pointer-mutation plus
error-return shape. -/
def parseNodeOptionsFromDispenser : List Line → Node → Node × Option Err
  | [], node => (node, none)
  | l :: rest, node =>
    if l.keyword = "auth_key" then
      match l.args with
      | [] => (node, some .argErr)
      | v :: _ => parseNodeOptionsFromDispenser rest { node with AuthKey := v }
    else if l.keyword = "control_url" then
      match l.args with
      | [] => (node, some .argErr)
      | v :: _ => parseNodeOptionsFromDispenser rest { node with ControlURL := v }
    else if l.keyword = "ephemeral" then
      match l.args with
      | v :: _ =>
        match goParseBool v with
        | none => (node, some (.wrapErr (parseBoolErr v)))
        | some b => parseNodeOptionsFromDispenser rest { node with Ephemeral := some b }
      | [] => parseNodeOptionsFromDispenser rest { node with Ephemeral := some true }
    else if l.keyword = "hostname" then
      match l.args with
      | [] => (node, some .argErr)
      | v :: _ => parseNodeOptionsFromDispenser rest { node with Hostname := v }
    else if l.keyword = "port" then
      match l.args with
      | [] => (node, some .argErr)
      | v :: _ =>
        match goParseUint1016 v with
        | .error e => (node, some (.wrapErr e))
        | .ok n => parseNodeOptionsFromDispenser rest { node with Port := n }
    else if l.keyword = "state_dir" then
      match l.args with
      | [] => (node, some .argErr)
      | v :: _ => parseNodeOptionsFromDispenser rest { node with StateDir := v }
    else if l.keyword = "webui" then
      match l.args with
      | v :: _ =>
        match goParseBool v with
        | none => (node, some (.wrapErr (parseBoolErr v)))
        | some b => parseNodeOptionsFromDispenser rest { node with WebUI := some b }
      | [] => parseNodeOptionsFromDispenser rest { node with WebUI := some true }
    else if l.keyword = "tags" then
      parseNodeOptionsFromDispenser rest { node with Tags := node.Tags ++ l.args }
    else
      (node, some (.errf ("unrecognized subdirective: " ++ l.keyword)))

/-- Embedding of `parseNodeOptionsFromHelper` (parse.go): the same switch
transcribed from the second Go function, which is written against the
`httpcaddyfile.Helper`-shaped adapter exposing the identical capability
set. -/
def parseNodeOptionsFromHelper : List Line → Node → Node × Option Err
  | [], node => (node, none)
  | l :: rest, node =>
    if l.keyword = "auth_key" then
      match l.args with
      | [] => (node, some .argErr)
      | v :: _ => parseNodeOptionsFromHelper rest { node with AuthKey := v }
    else if l.keyword = "control_url" then
      match l.args with
      | [] => (node, some .argErr)
      | v :: _ => parseNodeOptionsFromHelper rest { node with ControlURL := v }
    else if l.keyword = "ephemeral" then
      match l.args with
      | v :: _ =>
        match goParseBool v with
        | none => (node, some (.wrapErr (parseBoolErr v)))
        | some b => parseNodeOptionsFromHelper rest { node with Ephemeral := some b }
      | [] => parseNodeOptionsFromHelper rest { node with Ephemeral := some true }
    else if l.keyword = "hostname" then
      match l.args with
      | [] => (node, some .argErr)
      | v :: _ => parseNodeOptionsFromHelper rest { node with Hostname := v }
    else if l.keyword = "port" then
      match l.args with
      | [] => (node, some .argErr)
      | v :: _ =>
        match goParseUint1016 v with
        | .error e => (node, some (.wrapErr e))
        | .ok n => parseNodeOptionsFromHelper rest { node with Port := n }
    else if l.keyword = "state_dir" then
      match l.args with
      | [] => (node, some .argErr)
      | v :: _ => parseNodeOptionsFromHelper rest { node with StateDir := v }
    else if l.keyword = "webui" then
      match l.args with
      | v :: _ =>
        match goParseBool v with
        | none => (node, some (.wrapErr (parseBoolErr v)))
        | some b => parseNodeOptionsFromHelper rest { node with WebUI := some b }
      | [] => parseNodeOptionsFromHelper rest { node with WebUI := some true }
    else if l.keyword = "tags" then
      parseNodeOptionsFromHelper rest { node with Tags := node.Tags ++ l.args }
    else
      (node, some (.errf ("unrecognized subdirective: " ++ l.keyword)))

/-- The global Tailscale app configuration (`App` in app.go).  `Ephemeral`
and `WebUI` are plain booleans here (the default layer has no inherit
case), and `Nodes` is the name-keyed map of per-node overrides, embedded
as a lookup function with Go map update semantics. -/
structure App where
  DefaultAuthKey : String := ""
  ControlURL : String := ""
  Ephemeral : Bool := false
  StateDir : String := ""
  WebUI : Bool := false
  Tags : List String := []
  Nodes : String → Option Node := fun _ => none

/-- One App-scope entry of the token stream: the keyword token, the
arguments on its line, and — when the token introduces a named node
block — the nested segment of option lines that follows it (`none` when
no nested segment follows). -/
structure AppEntry where
  keyword : String
  args : List String
  block : Option (List Line) := none

/-- Embedding of `parseNamedNodeConfig` (parse.go): the current token is
the node name; `d.NewFromNextSegment()` yields the following nested
segment, and an absent segment (`!segment.Next()`) returns the zero
`Node` with `d.ArgErr()`.  Otherwise the segment's lines are parsed into
a fresh node carrying the name. -/
def parseNamedNodeConfig (name : String) (segment : Option (List Line)) : Node × Option Err :=
  match segment with
  | none => ({}, some .argErr)
  | some lines => parseNodeOptionsFromDispenser lines { name := name }

/-- Embedding of `parseAppOptions` (parse.go): the same loop-and-switch
over App-scope entries; the recognized keywords update the app record
(`auth_key` setting `DefaultAuthKey`; there are no `hostname` or `port`
cases at this level), and any other token is handed to
`parseNamedNodeConfig`, whose resulting node is inserted into `App.Nodes`
under its name. -/
def parseAppOptions : List AppEntry → App → App × Option Err
  | [], app => (app, none)
  | l :: rest, app =>
    if l.keyword = "auth_key" then
      match l.args with
      | [] => (app, some .argErr)
      | v :: _ => parseAppOptions rest { app with DefaultAuthKey := v }
    else if l.keyword = "control_url" then
      match l.args with
      | [] => (app, some .argErr)
      | v :: _ => parseAppOptions rest { app with ControlURL := v }
    else if l.keyword = "ephemeral" then
      match l.args with
      | v :: _ =>
        match goParseBool v with
        | none => (app, some (.wrapErr (parseBoolErr v)))
        | some b => parseAppOptions rest { app with Ephemeral := b }
      | [] => parseAppOptions rest { app with Ephemeral := true }
    else if l.keyword = "state_dir" then
      match l.args with
      | [] => (app, some .argErr)
      | v :: _ => parseAppOptions rest { app with StateDir := v }
    else if l.keyword = "webui" then
      match l.args with
      | v :: _ =>
        match goParseBool v with
        | none => (app, some (.wrapErr (parseBoolErr v)))
        | some b => parseAppOptions rest { app with WebUI := b }
      | [] => parseAppOptions rest { app with WebUI := true }
    else if l.keyword = "tags" then
      parseAppOptions rest { app with Tags := app.Tags ++ l.args }
    else
      match parseNamedNodeConfig l.keyword l.block with
      | (_, some e) => (app, some e)
      | (node, none) =>
        parseAppOptions rest
          { app with Nodes := fun x => if x = node.name then some node else app.Nodes x }

/-- The initial site-configuration registry: `siteConfigs` starts as an
empty map (`make(map[string]Node)` in directive.go). -/
def emptySiteConfigs : String → Option Node := fun _ => none

/-- Embedding of `setSiteConfig` (directive.go): upsert the node under its
name, leaving every other key's entry as it was (Go map assignment). -/
def setSiteConfig (siteConfigs : String → Option Node) (nodeName : String) (config : Node) :
    String → Option Node :=
  fun x => if x = nodeName then some config else siteConfigs x

/-- Embedding of `getSiteConfig` (directive.go): look the name up in the
registry; `none` plays the role of `found == false`. -/
def getSiteConfig (siteConfigs : String → Option Node) (nodeName : String) : Option Node :=
  siteConfigs nodeName

/-- The per-site directive record (`TailscaleDirective` in directive.go):
the same field set as `Node` plus the target `NodeName`. -/
structure TailscaleDirective where
  NodeName : String := ""
  AuthKey : String := ""
  ControlURL : String := ""
  Ephemeral : Option Bool := none
  WebUI : Option Bool := none
  Hostname : String := ""
  Port : Nat := 0
  StateDir : String := ""
  Tags : List String := []
  deriving Repr, DecidableEq

/-- Embedding of `TailscaleDirective.Provision` (directive.go): derive the
effective node name (the directive's `NodeName`, or `"default"` when that
is empty), build a `Node` from the directive's own fields plus that name,
and publish it with `setSiteConfig`.  The registry is passed and returned
explicitly in place of the package-level `siteConfigs` map. -/
def TailscaleDirective.Provision (t : TailscaleDirective)
    (siteConfigs : String → Option Node) : String → Option Node :=
  let nodeName := if t.NodeName = "" then "default" else t.NodeName
  let node : Node :=
    { AuthKey := t.AuthKey, ControlURL := t.ControlURL, Ephemeral := t.Ephemeral,
      WebUI := t.WebUI, Hostname := t.Hostname, Port := t.Port, StateDir := t.StateDir,
      Tags := t.Tags, name := nodeName }
  setSiteConfig siteConfigs nodeName node

/-- Embedding of `parseTailscaleDirective` (directive.go) for one
directive occurrence: the first bare argument (when present) becomes
`NodeName`, an empty name defaults to `"default"`, the body is parsed
into a scratch `Node` by `parseNodeOptionsFromHelper`, and its fields are
copied onto the directive; a body parse error aborts with that error. -/
def parseTailscaleDirective (firstArg : Option String) (body : List Line) :
    Except Err TailscaleDirective :=
  let nodeName0 := match firstArg with | some a => a | none => ""
  let nodeName := if nodeName0 = "" then "default" else nodeName0
  match parseNodeOptionsFromHelper body {} with
  | (_, some e) => .error e
  | (node, none) =>
    .ok { NodeName := nodeName, AuthKey := node.AuthKey, ControlURL := node.ControlURL,
          Ephemeral := node.Ephemeral, WebUI := node.WebUI, Hostname := node.Hostname,
          Port := node.Port, StateDir := node.StateDir, Tags := node.Tags }

/-- The keyword vocabulary of the Node-scope switch in parse.go. -/
def nodeKeywords : List String :=
  ["auth_key", "control_url", "ephemeral", "hostname", "port", "state_dir", "webui", "tags"]

/-- The keyword vocabulary of the App-scope switch in parse.go. -/
def appKeywords : List String :=
  ["auth_key", "control_url", "ephemeral", "state_dir", "webui", "tags"]

/-- Spec-side predicate: the string `s` denotes the base-10 unsigned
integer `v` (nonempty, all decimal digits, with value `v`). -/
abbrev decimalDenotes (s : String) (v : Nat) : Prop :=
  s.data.isEmpty = false ∧ s.data.all Char.isDigit = true ∧ strDecValue s = v

/-- Correspondence between an App-scope parse result and a Node-scope
parse result: the error outcomes agree and the app fields carry the same
parsed values (`DefaultAuthKey` standing for `AuthKey`, the plain
booleans standing for the tri-state fields with `false` as unset). -/
def appResultMatches (ra : App × Option Err) (rn : Node × Option Err) : Prop :=
  ra.2 = rn.2 ∧
  ra.1.DefaultAuthKey = rn.1.AuthKey ∧
  ra.1.ControlURL = rn.1.ControlURL ∧
  ra.1.Ephemeral = rn.1.Ephemeral.getD false ∧
  ra.1.StateDir = rn.1.StateDir ∧
  ra.1.WebUI = rn.1.WebUI.getD false ∧
  ra.1.Tags = rn.1.Tags

/-- C3: the registry is an upsert map with last-write-wins semantics:
after `set("x", A)` then `set("x", B)`, `get("x")` returns `B`; a name
never set reads back as not found; and a `set` for one name leaves every
other name's entry unchanged. -/
theorem siteConfig_registry_contract (m : String → Option Node) (name n2 nm : String)
    (A B v : Node) (hne : name ≠ n2) :
    getSiteConfig (setSiteConfig (setSiteConfig m name A) name B) name = some B ∧
    getSiteConfig emptySiteConfigs nm = none ∧
    getSiteConfig (setSiteConfig m name v) n2 = getSiteConfig m n2 := by
  refine ⟨?_, rfl, ?_⟩
  · simp [getSiteConfig, setSiteConfig]
  · simp only [getSiteConfig, setSiteConfig]
    rw [if_neg (Ne.symm hne)]

/-- Witness for `siteConfig_registry_contract` at concrete names and
nodes. -/
theorem siteConfig_registry_contract_witness :
    "x" ≠ "y" ∧
    (getSiteConfig (setSiteConfig (setSiteConfig emptySiteConfigs "x" { Hostname := "a" })
        "x" { Hostname := "b" }) "x" = some { Hostname := "b" } ∧
      getSiteConfig emptySiteConfigs "z" = none ∧
      getSiteConfig (setSiteConfig emptySiteConfigs "x" { Hostname := "a" }) "y"
        = getSiteConfig emptySiteConfigs "y") :=
  ⟨by decide,
    siteConfig_registry_contract emptySiteConfigs "x" "y" "z"
      { Hostname := "a" } { Hostname := "b" } { Hostname := "a" } (by decide)⟩

/-- C4: provisioning a directive publishes, under the effective node name
(the directive's `NodeName` when non-empty, else `"default"`), a `Node`
whose fields are exactly the directive's own fields — no App-level value
is merged in at this layer. -/
theorem provision_publishes_directive_fields (t : TailscaleDirective)
    (m : String → Option Node) :
    getSiteConfig (t.Provision m) (if t.NodeName = "" then "default" else t.NodeName) =
      some { AuthKey := t.AuthKey, ControlURL := t.ControlURL, Ephemeral := t.Ephemeral,
             WebUI := t.WebUI, Hostname := t.Hostname, Port := t.Port, StateDir := t.StateDir,
             Tags := t.Tags,
             name := if t.NodeName = "" then "default" else t.NodeName } := by
  simp [TailscaleDirective.Provision, getSiteConfig, setSiteConfig]

/-- C7: each single-argument keyword sets its field to the argument string
exactly and errors with the argument-missing error when the argument is
absent; `tags` appends its arguments to `Tags` in order and a bare `tags`
line is valid. -/
theorem singleArg_and_tags_semantics (node : Node) (arg : String) (args : List String) :
    (parseNodeOptionsFromDispenser [⟨"auth_key", [arg]⟩] node
        = ({ node with AuthKey := arg }, none) ∧
      parseNodeOptionsFromDispenser [⟨"auth_key", []⟩] node = (node, some .argErr)) ∧
    (parseNodeOptionsFromDispenser [⟨"control_url", [arg]⟩] node
        = ({ node with ControlURL := arg }, none) ∧
      parseNodeOptionsFromDispenser [⟨"control_url", []⟩] node = (node, some .argErr)) ∧
    (parseNodeOptionsFromDispenser [⟨"hostname", [arg]⟩] node
        = ({ node with Hostname := arg }, none) ∧
      parseNodeOptionsFromDispenser [⟨"hostname", []⟩] node = (node, some .argErr)) ∧
    (parseNodeOptionsFromDispenser [⟨"state_dir", [arg]⟩] node
        = ({ node with StateDir := arg }, none) ∧
      parseNodeOptionsFromDispenser [⟨"state_dir", []⟩] node = (node, some .argErr)) ∧
    parseNodeOptionsFromDispenser [⟨"tags", args⟩] node
        = ({ node with Tags := node.Tags ++ args }, none) ∧
    parseNodeOptionsFromDispenser [⟨"tags", []⟩] node = (node, none) := by
  refine ⟨⟨rfl, rfl⟩, ⟨rfl, rfl⟩, ⟨rfl, rfl⟩, ⟨rfl, rfl⟩, rfl, ?_⟩
  simp [parseNodeOptionsFromDispenser]

/-- C5: `ephemeral` and `webui` with no argument set the tri-state field
to true; with argument `"true"`/`"false"` they set the corresponding
value; with any token `ParseBool` rejects, parsing fails wrapping the
boolean-conversion failure and the node — in particular the tri-state
field — is returned unchanged. -/
theorem triState_bool_semantics (node : Node) (s : String) (hbad : goParseBool s = none) :
    (parseNodeOptionsFromDispenser [⟨"ephemeral", []⟩] node
        = ({ node with Ephemeral := some true }, none) ∧
      parseNodeOptionsFromDispenser [⟨"ephemeral", ["true"]⟩] node
        = ({ node with Ephemeral := some true }, none) ∧
      parseNodeOptionsFromDispenser [⟨"ephemeral", ["false"]⟩] node
        = ({ node with Ephemeral := some false }, none) ∧
      parseNodeOptionsFromDispenser [⟨"ephemeral", [s]⟩] node
        = (node, some (.wrapErr (parseBoolErr s)))) ∧
    (parseNodeOptionsFromDispenser [⟨"webui", []⟩] node
        = ({ node with WebUI := some true }, none) ∧
      parseNodeOptionsFromDispenser [⟨"webui", ["true"]⟩] node
        = ({ node with WebUI := some true }, none) ∧
      parseNodeOptionsFromDispenser [⟨"webui", ["false"]⟩] node
        = ({ node with WebUI := some false }, none) ∧
      parseNodeOptionsFromDispenser [⟨"webui", [s]⟩] node
        = (node, some (.wrapErr (parseBoolErr s)))) := by
  refine ⟨⟨rfl, rfl, rfl, ?_⟩, ⟨rfl, rfl, rfl, ?_⟩⟩ <;>
    simp [parseNodeOptionsFromDispenser, hbad]

/-- Witness for `triState_bool_semantics` at the non-boolean token
`"maybe"`. -/
theorem triState_bool_semantics_witness :
    goParseBool "maybe" = none ∧
    parseNodeOptionsFromDispenser [⟨"ephemeral", ["maybe"]⟩] ({} : Node)
      = ({}, some (.wrapErr (parseBoolErr "maybe"))) :=
  ⟨by decide, (triState_bool_semantics {} "maybe" (by decide)).1.2.2.2⟩

/-- C10: any token outside the Node-scope keyword vocabulary makes both
parser entry points fail immediately (whatever lines follow), returning
the node unchanged with the error message "unrecognized subdirective: "
followed by the offending token verbatim. -/
theorem unrecognized_subdirective_error (tok : String) (args : List String)
    (rest : List Line) (node : Node) (h : tok ∉ nodeKeywords) :
    parseNodeOptionsFromDispenser (⟨tok, args⟩ :: rest) node
        = (node, some (.errf ("unrecognized subdirective: " ++ tok))) ∧
    parseNodeOptionsFromHelper (⟨tok, args⟩ :: rest) node
        = (node, some (.errf ("unrecognized subdirective: " ++ tok))) := by
  simp only [nodeKeywords, List.mem_cons, List.mem_singleton, not_or] at h
  obtain ⟨h1, h2, h3, h4, h5, h6, h7, h8⟩ := h
  constructor <;>
    simp [parseNodeOptionsFromDispenser, parseNodeOptionsFromHelper,
      h1, h2, h3, h4, h5, h6, h7, h8]

/-- Witness for `unrecognized_subdirective_error` at the token
`"bogus"`. -/
theorem unrecognized_subdirective_error_witness :
    "bogus" ∉ nodeKeywords ∧
    parseNodeOptionsFromDispenser [⟨"bogus", []⟩] ({} : Node)
      = ({}, some (.errf ("unrecognized subdirective: " ++ "bogus"))) :=
  ⟨by decide, (unrecognized_subdirective_error "bogus" [] [] {} (by decide)).1⟩

/-- C9: a named node block with no following nested segment is a hard
argument-missing parse error, both in `parseNamedNodeConfig` itself and
through the App-scope parse that dispatches to it. -/
theorem namedNode_missing_body_is_argErr (nm : String) (app : App) (tok : String)
    (args : List String) (rest : List AppEntry) (h : tok ∉ appKeywords) :
    parseNamedNodeConfig nm none = ({}, some .argErr) ∧
    parseAppOptions (⟨tok, args, none⟩ :: rest) app = (app, some .argErr) := by
  refine ⟨rfl, ?_⟩
  simp only [appKeywords, List.mem_cons, List.mem_singleton, not_or] at h
  obtain ⟨h1, h2, h3, h4, h5, h6⟩ := h
  simp [parseAppOptions, parseNamedNodeConfig, h1, h2, h3, h4, h5, h6]

/-- Witness for `namedNode_missing_body_is_argErr` at a concrete bodyless
named block. -/
theorem namedNode_missing_body_is_argErr_witness :
    "mynode" ∉ appKeywords ∧
    parseAppOptions [⟨"mynode", [], none⟩] ({} : App) = ({}, some .argErr) :=
  ⟨by decide, (namedNode_missing_body_is_argErr "n" {} "mynode" [] [] (by decide)).2⟩

/-- C2: the two parser entry points — one per token-stream adapter
shape — are observationally equivalent: on every token stream and every
initial node they produce the same resulting node and the same error
outcome. -/
theorem dispenser_helper_equivalent (ls : List Line) (node : Node) :
    parseNodeOptionsFromDispenser ls node = parseNodeOptionsFromHelper ls node := by
  induction ls generalizing node with
  | nil => rfl
  | cons l rest ih =>
    simp only [parseNodeOptionsFromDispenser, parseNodeOptionsFromHelper]
    repeat' split
    all_goals first | rfl | exact ih _

/-- Node-option parsing never changes the node's internal name: every
update branch leaves `name` untouched and every error branch returns the
node as-is. -/
theorem parse_preserves_name (ls : List Line) (node : Node) :
    (parseNodeOptionsFromDispenser ls node).1.name = node.name := by
  induction ls generalizing node with
  | nil => rfl
  | cons l rest ih =>
    simp only [parseNodeOptionsFromDispenser]
    repeat' split
    all_goals first | rfl | exact ih _

/-- C6: the `port` keyword parses every base-10 string denoting a value
from 0 through 65535 and sets `Port` to that value; any string that
denotes no such value (out of range or non-numeric, including `"65536"`
and `"abc"`) is a hard parse error wrapping the conversion failure, with
the node returned unchanged — never clamped. -/
theorem port_parse_bounds (node : Node) (s : String) (v : Nat) :
    (decimalDenotes s v → v ≤ 65535 →
      parseNodeOptionsFromDispenser [⟨"port", [s]⟩] node = ({ node with Port := v }, none)) ∧
    ((∀ w, decimalDenotes s w → 65535 < w) →
      ∃ e, parseNodeOptionsFromDispenser [⟨"port", [s]⟩] node = (node, some (.wrapErr e))) ∧
    parseNodeOptionsFromDispenser [⟨"port", ["65536"]⟩] node
      = (node, some (.wrapErr ⟨"ParseUint", "65536", "value out of range"⟩)) ∧
    parseNodeOptionsFromDispenser [⟨"port", ["abc"]⟩] node
      = (node, some (.wrapErr ⟨"ParseUint", "abc", "invalid syntax"⟩)) := by
  refine ⟨?_, ?_, rfl, rfl⟩
  · rintro ⟨hne, hdig, hval⟩ hle
    have hlt : v < 65536 := by omega
    simp [parseNodeOptionsFromDispenser, goParseUint1016, hne, hdig, hval, hlt]
  · intro hbig
    cases hne : s.data.isEmpty with
    | true =>
      exact ⟨⟨"ParseUint", s, "invalid syntax"⟩,
        by simp [parseNodeOptionsFromDispenser, goParseUint1016, hne]⟩
    | false =>
      cases hdig : s.data.all Char.isDigit with
      | false =>
        exact ⟨⟨"ParseUint", s, "invalid syntax"⟩,
          by simp [parseNodeOptionsFromDispenser, goParseUint1016, hne, hdig]⟩
      | true =>
        have hgt : 65535 < strDecValue s := hbig (strDecValue s) ⟨hne, hdig, rfl⟩
        have hnlt : ¬ strDecValue s < 65536 := by omega
        exact ⟨⟨"ParseUint", s, "value out of range"⟩,
          by simp [parseNodeOptionsFromDispenser, goParseUint1016, hne, hdig, hnlt]⟩

/-- Witness for `port_parse_bounds` at the in-range string `"8443"`. -/
theorem port_parse_bounds_witness :
    decimalDenotes "8443" 8443 ∧ 8443 ≤ 65535 ∧
    parseNodeOptionsFromDispenser [⟨"port", ["8443"]⟩] ({} : Node)
      = ({ Port := 8443 }, none) :=
  ⟨by decide, by decide, (port_parse_bounds {} "8443" 8443).1 (by decide) (by decide)⟩

/-- C8: when two App-scope named node blocks carry the same name, the
node parsed from the later block is the one stored in `App.Nodes` under
that name, the earlier entry being overwritten silently with no error. -/
theorem named_block_collision_lastWins (nm : String) (ls1 ls2 : List Line) (app : App)
    (hk : nm ∉ appKeywords)
    (h1 : (parseNodeOptionsFromDispenser ls1 { name := nm }).2 = none)
    (h2 : (parseNodeOptionsFromDispenser ls2 { name := nm }).2 = none) :
    (parseAppOptions [⟨nm, [], some ls1⟩, ⟨nm, [], some ls2⟩] app).2 = none ∧
    (parseAppOptions [⟨nm, [], some ls1⟩, ⟨nm, [], some ls2⟩] app).1.Nodes nm
      = some (parseNodeOptionsFromDispenser ls2 { name := nm }).1 := by
  simp only [appKeywords, List.mem_cons, List.mem_singleton, not_or] at hk
  obtain ⟨k1, k2, k3, k4, k5, k6⟩ := hk
  have e1 : parseNamedNodeConfig nm (some ls1)
      = ((parseNodeOptionsFromDispenser ls1 { name := nm }).1, none) :=
    Prod.ext_iff.mpr ⟨rfl, h1⟩
  have e2 : parseNamedNodeConfig nm (some ls2)
      = ((parseNodeOptionsFromDispenser ls2 { name := nm }).1, none) :=
    Prod.ext_iff.mpr ⟨rfl, h2⟩
  have hn2 : (parseNodeOptionsFromDispenser ls2 { name := nm }).1.name = nm :=
    parse_preserves_name ls2 { name := nm }
  constructor <;>
    simp [parseAppOptions, k1, k2, k3, k4, k5, k6, e1, e2, hn2]

/-- Witness for `named_block_collision_lastWins`: two blocks named
`"edge"`, the second setting `hostname h2`, and the second block's parsed
node is the one found under `"edge"`. -/
theorem named_block_collision_lastWins_witness :
    ("edge" ∉ appKeywords ∧
      (parseNodeOptionsFromDispenser [⟨"hostname", ["h1"]⟩] { name := "edge" }).2 = none ∧
      (parseNodeOptionsFromDispenser [⟨"hostname", ["h2"]⟩] { name := "edge" }).2 = none) ∧
    (parseAppOptions [⟨"edge", [], some [⟨"hostname", ["h1"]⟩]⟩,
        ⟨"edge", [], some [⟨"hostname", ["h2"]⟩]⟩] ({} : App)).1.Nodes "edge"
      = some (parseNodeOptionsFromDispenser [⟨"hostname", ["h2"]⟩] { name := "edge" }).1 :=
  ⟨⟨by decide, by decide, by decide⟩,
    (named_block_collision_lastWins "edge" [⟨"hostname", ["h1"]⟩] [⟨"hostname", ["h2"]⟩] {}
      (by decide) (by decide) (by decide)).2⟩

/-- C1 counterexample: `hostname` and `port` are not App-scope option
keywords.  A `hostname h1` line sets `Hostname` at Node scope, but at App
scope the same line falls to the named-node branch and (with no nested
segment) is an argument-missing error; with a nested segment the token
becomes a node name, creating `App.Nodes["hostname"]`.  Likewise for
`port`. -/
theorem app_vocabulary_counterexample :
    parseNodeOptionsFromDispenser [⟨"hostname", ["h1"]⟩] ({} : Node)
      = ({ Hostname := "h1" }, none) ∧
    (parseAppOptions [⟨"hostname", ["h1"], none⟩] ({} : App)).2 = some .argErr ∧
    (parseAppOptions [⟨"hostname", [], some [⟨"auth_key", ["k"]⟩]⟩] ({} : App)).1.Nodes
        "hostname" = some { AuthKey := "k", name := "hostname" } ∧
    parseNodeOptionsFromDispenser [⟨"port", ["80"]⟩] ({} : Node)
      = ({ Port := 80 }, none) ∧
    (parseAppOptions [⟨"port", ["80"], none⟩] ({} : App)).2 = some .argErr := by
  refine ⟨rfl, rfl, ?_, rfl, rfl⟩
  decide

/-- C1 amended: for every keyword actually in the App-scope vocabulary
(auth_key, control_url, ephemeral, state_dir, webui, tags) and any
argument list, App-scope parsing and Node-scope parsing agree — same
error outcome and the same parsed values on the corresponding fields,
with `auth_key` setting `DefaultAuthKey` instead of `AuthKey`. -/
theorem app_vocabulary_amended (k : String) (args : List String) (hk : k ∈ appKeywords) :
    appResultMatches (parseAppOptions [⟨k, args, none⟩] {})
      (parseNodeOptionsFromDispenser [⟨k, args⟩] {}) := by
  simp only [appKeywords, List.mem_cons, List.not_mem_nil, or_false] at hk
  rcases hk with h | h | h | h | h | h <;> subst h <;>
    rcases args with _ | ⟨v, t⟩ <;>
      simp [parseAppOptions, parseNodeOptionsFromDispenser, appResultMatches] <;>
      rcases hb : goParseBool v with _ | b <;>
        simp [parseAppOptions, parseNodeOptionsFromDispenser, appResultMatches, hb]

/-- Witness for `app_vocabulary_amended` at `auth_key k1`. -/
theorem app_vocabulary_amended_witness :
    "auth_key" ∈ appKeywords ∧
    appResultMatches (parseAppOptions [⟨"auth_key", ["k1"], none⟩] {})
      (parseNodeOptionsFromDispenser [⟨"auth_key", ["k1"]⟩] {}) :=
  ⟨by decide, app_vocabulary_amended "auth_key" ["k1"] (by decide)⟩

end TSCaddy
